import Mathlib

/-!
# Verification of the soren POR-bytecode decompiler core

Shallow embedding of `src/main.cpp` (namespace `soren`): the instruction
decoder `decode_script`, the slice-point construction of `slice_script`,
the branch-and-keep rewrite `convert_bks_to_fake_logic`, the expression
and statement AST types, and the symbolic evaluator `make_statements`.

Machine integers are modelled explicitly: `unsigned` values as `Nat`
(with wraparound written out where the source can wrap), `std::int32_t`
operands as `Int` together with explicit reductions modulo `2^32`.
Loops are modelled by structural recursion on an explicit fuel argument;
the top-level entry points pass a fuel that is provably sufficient
because the loop index strictly increases at every iteration, so the
fuel-exhaustion branches return exactly what the C++ loop exit returns.
-/

namespace Soren

/-! ## Machine-integer helpers -/

/-- Interpret an integer as a C++ `unsigned` (32-bit) value, as happens on
the source's `(unsigned) ins.operand` casts. -/
def toU32 (x : Int) : Nat := (x % (2 ^ 32 : Int)).toNat

/-- Interpret an integer as a C++ `std::size_t` (64-bit) value, as happens
when an `int` operand is used as a container index or inserted into a
`std::set<std::size_t>`. -/
def toU64 (x : Int) : Nat := (x % (2 ^ 64 : Int)).toNat

/-- Reduce an integer into `std::int32_t` range, two's complement. -/
def toI32 (x : Int) : Int :=
  let m := x % (2 ^ 32 : Int)
  if m ≥ (2 ^ 31 : Int) then m - 2 ^ 32 else m

/-- Bitwise AND of a (possibly negative) `std::int32_t` with a small
nonnegative mask, as in the source's `ins.operand & 0x80`.  Two's
complement: only the low 32 bits of `x` matter. -/
def i32and (x : Int) (mask : Nat) : Nat := (x % (2 ^ 32 : Int)).toNat &&& mask

/-- `soren::sign_extend` : sign-extend the low `bits` bits of a decoded
value to a signed 32-bit integer (`(value << rbits) >> rbits`). -/
def sign_extend (v : Nat) (bits : Nat) : Int :=
  if v % 2 ^ bits ≥ 2 ^ (bits - 1) then (v % 2 ^ bits : Int) - 2 ^ bits
  else (v % 2 ^ bits : Int)

/-- `soren::decode_int_be` applied to the `w` bytes of `bytes` starting at
index `j` (the source iterates `result = *begin++ + (result << 8)`). -/
def readBE (bytes : List Nat) (j w : Nat) : Nat :=
  (List.range w).foldl (fun r k => bytes.getD (j + k) 0 + r * 256) 0

/-! ## Opcode table

Modelled from the spec: the static opcode table lives in
`core/por-bytecode.h`, which is not part of `src/`; `src/main.cpp` only
uses it through `ins.info()` (fields `operandSize`, `isJump`) and
`ins.valid<IsFE10>()`, plus the named opcode constants `BC_OPCODE_*` and
`BC_FAKEOP_*`.  Per the spec (§4.A, §3): operand widths follow the
`8/16/32` suffix convention (1, 2 or 4 bytes), the jump opcodes are
`B`, `BY`, `BN`, `BKY`, `BKN` (width 2, per the worked examples in §4.D
and §8), the return opcodes `RETURN`, `RETN`, `RETY` have width 0, `CALL`
has a 1-byte (variable-length) operand, `CALLEXT` a 4-byte operand, and
the synthetic `FAKE_LAND` / `FAKE_LORR` have width 0 and are not jumps.
Concrete byte values are not specified; we assign distinct values, with
`CALL = 37` (the source comment names it `call(37)`), `OPCODE_40 = 0x40`,
and the synthetic fake opcodes above the byte range so that no script
byte can decode to them.  The spec does not name the opcodes that exist
in only one dialect, so every listed opcode is marked valid in both. -/

def BC_OPCODE_NOP : Nat := 0
def BC_OPCODE_VAL8 : Nat := 1
def BC_OPCODE_VAL16 : Nat := 2
def BC_OPCODE_VALX8 : Nat := 3
def BC_OPCODE_VALX16 : Nat := 4
def BC_OPCODE_REF8 : Nat := 5
def BC_OPCODE_REF16 : Nat := 6
def BC_OPCODE_REFX8 : Nat := 7
def BC_OPCODE_REFX16 : Nat := 8
def BC_OPCODE_GVAL8 : Nat := 9
def BC_OPCODE_GVAL16 : Nat := 10
def BC_OPCODE_GVALX8 : Nat := 11
def BC_OPCODE_GVALX16 : Nat := 12
def BC_OPCODE_GREF8 : Nat := 13
def BC_OPCODE_GREF16 : Nat := 14
def BC_OPCODE_GREFX8 : Nat := 15
def BC_OPCODE_GREFX16 : Nat := 16
def BC_OPCODE_NUMBER8 : Nat := 17
def BC_OPCODE_NUMBER16 : Nat := 18
def BC_OPCODE_NUMBER32 : Nat := 19
def BC_OPCODE_STRING8 : Nat := 20
def BC_OPCODE_STRING16 : Nat := 21
def BC_OPCODE_STRING32 : Nat := 22
def BC_OPCODE_DEREF : Nat := 23
def BC_OPCODE_DISC : Nat := 24
def BC_OPCODE_STORE : Nat := 25
def BC_OPCODE_ADD : Nat := 26
def BC_OPCODE_SUB : Nat := 27
def BC_OPCODE_MUL : Nat := 28
def BC_OPCODE_DIV : Nat := 29
def BC_OPCODE_MOD : Nat := 30
def BC_OPCODE_ORR : Nat := 31
def BC_OPCODE_AND : Nat := 32
def BC_OPCODE_XOR : Nat := 33
def BC_OPCODE_LSL : Nat := 34
def BC_OPCODE_LSR : Nat := 35
def BC_OPCODE_NEG : Nat := 36
def BC_OPCODE_CALL : Nat := 37
def BC_OPCODE_NOT : Nat := 38
def BC_OPCODE_MVN : Nat := 39
def BC_OPCODE_EQ : Nat := 40
def BC_OPCODE_NE : Nat := 41
def BC_OPCODE_LT : Nat := 42
def BC_OPCODE_LE : Nat := 43
def BC_OPCODE_GT : Nat := 44
def BC_OPCODE_GE : Nat := 45
def BC_OPCODE_EQSTR : Nat := 46
def BC_OPCODE_NESTR : Nat := 47
def BC_OPCODE_CALLEXT : Nat := 48
def BC_OPCODE_RETURN : Nat := 49
def BC_OPCODE_B : Nat := 50
def BC_OPCODE_BN : Nat := 51
def BC_OPCODE_BY : Nat := 52
def BC_OPCODE_YIELD : Nat := 53
def BC_OPCODE_PRINTF : Nat := 54
def BC_OPCODE_DUP : Nat := 55
def BC_OPCODE_RETN : Nat := 56
def BC_OPCODE_RETY : Nat := 57
def BC_OPCODE_ASSIGN : Nat := 58
def BC_OPCODE_BKY : Nat := 59
def BC_OPCODE_BKN : Nat := 60
def BC_OPCODE_40 : Nat := 64
def BC_FAKEOP_LAND : Nat := 256
def BC_FAKEOP_LORR : Nat := 257

/-- Static metadata of one opcode (`BcIns::info()` of the header). -/
structure BcInsInfo where
  operandSize : Nat
  isJump : Bool
  validFE10 : Bool
  validFE9 : Bool
  deriving DecidableEq

/-- Modelled from the spec: the opcode-info table of `core/por-bytecode.h`
(see the table comment above).  Unknown opcode bytes are invalid. -/
def opcode_info (op : Nat) : BcInsInfo :=
  if op = BC_OPCODE_NOP then ⟨0, false, true, true⟩
  else if op = BC_OPCODE_VAL8 then ⟨1, false, true, true⟩
  else if op = BC_OPCODE_VAL16 then ⟨2, false, true, true⟩
  else if op = BC_OPCODE_VALX8 then ⟨1, false, true, true⟩
  else if op = BC_OPCODE_VALX16 then ⟨2, false, true, true⟩
  else if op = BC_OPCODE_REF8 then ⟨1, false, true, true⟩
  else if op = BC_OPCODE_REF16 then ⟨2, false, true, true⟩
  else if op = BC_OPCODE_REFX8 then ⟨1, false, true, true⟩
  else if op = BC_OPCODE_REFX16 then ⟨2, false, true, true⟩
  else if op = BC_OPCODE_GVAL8 then ⟨1, false, true, true⟩
  else if op = BC_OPCODE_GVAL16 then ⟨2, false, true, true⟩
  else if op = BC_OPCODE_GVALX8 then ⟨1, false, true, true⟩
  else if op = BC_OPCODE_GVALX16 then ⟨2, false, true, true⟩
  else if op = BC_OPCODE_GREF8 then ⟨1, false, true, true⟩
  else if op = BC_OPCODE_GREF16 then ⟨2, false, true, true⟩
  else if op = BC_OPCODE_GREFX8 then ⟨1, false, true, true⟩
  else if op = BC_OPCODE_GREFX16 then ⟨2, false, true, true⟩
  else if op = BC_OPCODE_NUMBER8 then ⟨1, false, true, true⟩
  else if op = BC_OPCODE_NUMBER16 then ⟨2, false, true, true⟩
  else if op = BC_OPCODE_NUMBER32 then ⟨4, false, true, true⟩
  else if op = BC_OPCODE_STRING8 then ⟨1, false, true, true⟩
  else if op = BC_OPCODE_STRING16 then ⟨2, false, true, true⟩
  else if op = BC_OPCODE_STRING32 then ⟨4, false, true, true⟩
  else if op = BC_OPCODE_DEREF then ⟨0, false, true, true⟩
  else if op = BC_OPCODE_DISC then ⟨0, false, true, true⟩
  else if op = BC_OPCODE_STORE then ⟨0, false, true, true⟩
  else if op = BC_OPCODE_ADD then ⟨0, false, true, true⟩
  else if op = BC_OPCODE_SUB then ⟨0, false, true, true⟩
  else if op = BC_OPCODE_MUL then ⟨0, false, true, true⟩
  else if op = BC_OPCODE_DIV then ⟨0, false, true, true⟩
  else if op = BC_OPCODE_MOD then ⟨0, false, true, true⟩
  else if op = BC_OPCODE_ORR then ⟨0, false, true, true⟩
  else if op = BC_OPCODE_AND then ⟨0, false, true, true⟩
  else if op = BC_OPCODE_XOR then ⟨0, false, true, true⟩
  else if op = BC_OPCODE_LSL then ⟨0, false, true, true⟩
  else if op = BC_OPCODE_LSR then ⟨0, false, true, true⟩
  else if op = BC_OPCODE_NEG then ⟨0, false, true, true⟩
  else if op = BC_OPCODE_CALL then ⟨1, false, true, true⟩
  else if op = BC_OPCODE_NOT then ⟨0, false, true, true⟩
  else if op = BC_OPCODE_MVN then ⟨0, false, true, true⟩
  else if op = BC_OPCODE_EQ then ⟨0, false, true, true⟩
  else if op = BC_OPCODE_NE then ⟨0, false, true, true⟩
  else if op = BC_OPCODE_LT then ⟨0, false, true, true⟩
  else if op = BC_OPCODE_LE then ⟨0, false, true, true⟩
  else if op = BC_OPCODE_GT then ⟨0, false, true, true⟩
  else if op = BC_OPCODE_GE then ⟨0, false, true, true⟩
  else if op = BC_OPCODE_EQSTR then ⟨0, false, true, true⟩
  else if op = BC_OPCODE_NESTR then ⟨0, false, true, true⟩
  else if op = BC_OPCODE_CALLEXT then ⟨4, false, true, true⟩
  else if op = BC_OPCODE_RETURN then ⟨0, false, true, true⟩
  else if op = BC_OPCODE_B then ⟨2, true, true, true⟩
  else if op = BC_OPCODE_BN then ⟨2, true, true, true⟩
  else if op = BC_OPCODE_BY then ⟨2, true, true, true⟩
  else if op = BC_OPCODE_YIELD then ⟨0, false, true, true⟩
  else if op = BC_OPCODE_PRINTF then ⟨1, false, true, true⟩
  else if op = BC_OPCODE_DUP then ⟨0, false, true, true⟩
  else if op = BC_OPCODE_RETN then ⟨0, false, true, true⟩
  else if op = BC_OPCODE_RETY then ⟨0, false, true, true⟩
  else if op = BC_OPCODE_ASSIGN then ⟨0, false, true, true⟩
  else if op = BC_OPCODE_BKY then ⟨2, true, true, true⟩
  else if op = BC_OPCODE_BKN then ⟨2, true, true, true⟩
  else if op = BC_OPCODE_40 then ⟨0, false, true, true⟩
  else if op = BC_FAKEOP_LAND then ⟨0, false, true, true⟩
  else if op = BC_FAKEOP_LORR then ⟨0, false, true, true⟩
  else ⟨0, false, false, false⟩

/-- The opcodes of the decoder's jump `switch` cases
(`B`, `BY`, `BKY`, `BN`, `BKN`). -/
def is_jump_opcode (op : Nat) : Prop :=
  op = BC_OPCODE_B ∨ op = BC_OPCODE_BY ∨ op = BC_OPCODE_BKY ∨
  op = BC_OPCODE_BN ∨ op = BC_OPCODE_BKN

instance (op : Nat) : Decidable (is_jump_opcode op) := by
  unfold is_jump_opcode; infer_instance

/-- The opcodes of the decoder's terminating `switch` cases
(`RETURN`, `RETN`, `RETY`). -/
def is_return_opcode (op : Nat) : Prop :=
  op = BC_OPCODE_RETURN ∨ op = BC_OPCODE_RETN ∨ op = BC_OPCODE_RETY

instance (op : Nat) : Decidable (is_return_opcode op) := by
  unfold is_return_opcode; infer_instance

/-! ## Decoded instructions (`DisIns = BcIns<unsigned>`) -/

/-- A decoded instruction: absolute byte `location`, `opcode` byte and
sign-extended 32-bit `operand` (absolute target for jumps). -/
structure DisIns where
  location : Nat
  opcode : Nat
  operand : Int
  deriving DecidableEq

instance : Inhabited DisIns := ⟨⟨0, 0, 0⟩⟩

/-- Errors of `decode_script` (the source throws `std::runtime_error`). -/
inductive DecodeErr where
  | invalidOpcode
  | wrongDialectOpcode
  | truncatedOperand
  deriving DecidableEq

/-! ## The instruction decoder (`decode_script`, FE10 / dialect-A
instantiation, the one `main` uses) -/

/-- The classification `switch` at the end of each decoder iteration
(`src/main.cpp` lines 163-184): jumps get their operand rewritten to the
absolute target and bump `lastJump`; terminating opcodes set `ended` iff
the cursor is past `lastJump`.  Returns the instruction, the new cursor,
the new `lastJump`, and the `ended` flag. -/
def finishIns (op loc : Nat) (operand : Int) (i lj : Nat) :
    DisIns × Nat × Nat × Bool :=
  if is_jump_opcode op then
    let tgt := toI32 ((i : Int) + operand - ((opcode_info op).operandSize : Int))
    (⟨loc, op, tgt⟩, i, max lj (toU32 tgt), false)
  else if is_return_opcode op then
    (⟨loc, op, operand⟩, i, lj, decide (i > lj))
  else
    (⟨loc, op, operand⟩, i, lj, false)

/-- One iteration of the decoder loop (`src/main.cpp` lines 126-187):
read the opcode byte at `i0`, check dialect validity, read and
sign-extend the big-endian operand (failing when `i0 + 1 + w ≥ |bytes|`,
the source's `i + operandSize >= bytes.size()`), apply the FE10
variable-length `CALL` extension, then classify via `finishIns`. -/
def decodeStep (bytes : List Nat) (i0 lj : Nat) :
    Except DecodeErr (DisIns × Nat × Nat × Bool) :=
  let op := bytes.getD i0 0
  let info := opcode_info op
  if info.validFE10 = false then
    .error (if info.validFE10 = true then .wrongDialectOpcode else .invalidOpcode)
  else if 0 < info.operandSize then
    if bytes.length ≤ i0 + 1 + info.operandSize then
      .error .truncatedOperand
    else
      let operand := sign_extend (readBE bytes (i0 + 1) info.operandSize)
        (info.operandSize * 8)
      let i2 := i0 + 1 + info.operandSize
      if op = BC_OPCODE_CALL ∧ i32and operand 0x80 ≠ 0 then
        .ok (finishIns op i0
          ((i32and operand 0x7F : Nat) * 256 + (bytes.getD i2 0 : Int)) (i2 + 1) lj)
      else
        .ok (finishIns op i0 operand i2 lj)
  else
    .ok (finishIns op i0 0 (i0 + 1) lj)

/-- The decoder loop (`while (!ended && i < bytes.size())`), by fuel.
The cursor strictly increases at every iteration, so with fuel
`bytes.length - i` available the fuel-0 branch is reached only with
`i ≥ bytes.length`, where it returns exactly what the loop exit returns.
The second component is the final `ended` flag. -/
def decodeLoop (bytes : List Nat) : Nat → Nat → Nat →
    Except DecodeErr (List DisIns × Bool)
  | 0, _, _ => .ok ([], false)
  | fuel + 1, i, lj =>
    if i < bytes.length then
      match decodeStep bytes i lj with
      | .error e => .error e
      | .ok (ins, i2, lj2, ended) =>
        if ended then .ok ([ins], true)
        else
          match decodeLoop bytes fuel i2 lj2 with
          | .error e => .error e
          | .ok (rest, ed) => .ok (ins :: rest, ed)
    else .ok ([], false)

/-- `soren::decode_script` (dialect-A instantiation). -/
def decode_script (bytes : List Nat) : Except DecodeErr (List DisIns) :=
  (decodeLoop bytes bytes.length 0 0).map Prod.fst

/-! ## The slicer's slice-point construction
(`slice_script`, step 1, `src/main.cpp` lines 196-224).  Only the
slice-point set is modelled; step 2 merely cuts the instruction list at
these points.  The `std::set<std::size_t>` is modelled as a `Finset Nat`;
the `ignoreBK` parameter is the `IgnoreBranchAndKeeps` template
parameter, `true` by default and in `main`. -/

/-- The body of the slice-point loop for one instruction. -/
def slicePointStep (ignoreBK : Bool) (pts : Finset Nat) (ins : DisIns) : Finset Nat :=
  if ignoreBK ∧ (ins.opcode = BC_OPCODE_BKN ∨ ins.opcode = BC_OPCODE_BKY) then
    pts
  else
    let pts := if (opcode_info ins.opcode).isJump then
        insert (toU64 ins.operand)
          (insert (ins.location + 1 + (opcode_info ins.opcode).operandSize) pts)
      else pts
    if ins.opcode = BC_OPCODE_RETURN then insert (ins.location + 1) pts
    else pts

def slice_points (script : List DisIns) (ignoreBK : Bool) : Finset Nat :=
  script.foldl (slicePointStep ignoreBK) ∅

/-- The slice points one instruction contributes (with branch-and-keep
suppression on). -/
def slice_point_contrib (ins : DisIns) (p : Nat) : Prop :=
  ¬ (ins.opcode = BC_OPCODE_BKN ∨ ins.opcode = BC_OPCODE_BKY) ∧
  (((opcode_info ins.opcode).isJump = true ∧
      (p = ins.location + 1 + (opcode_info ins.opcode).operandSize ∨
       p = toU64 ins.operand)) ∨
   (ins.opcode = BC_OPCODE_RETURN ∧ p = ins.location + 1))


/-! ## The branch-and-keep rewrite (`convert_bks_to_fake_logic`,
`src/main.cpp` lines 255-303).  The in-place array mutation is modelled
on lists: `lswap` is `std::swap(slice[a], slice[b])`. -/

/-- `std::swap(slice[a], slice[b])` on a list (both indices in range in
every use below). -/
def lswap (l : List DisIns) (a b : Nat) : List DisIns :=
  (l.set a (l.getD b default)).set b (l.getD a default)

/-- The inner bubbling loop
(`while (j < slice.size() && slice[j].location != target)`), by fuel.
As with the decoder loop, `j` strictly increases, so fuel `l.length`
makes the fuel-0 branch unreachable except with `j ≥ l.length`, where it
agrees with the loop exit. -/
def bubbleLoop (target : Nat) : Nat → List DisIns → Nat → List DisIns × Nat
  | 0, l, j => (l, j)
  | fuel + 1, l, j =>
    if j < l.length then
      if (l.getD j default).location = target then (l, j)
      else bubbleLoop target fuel (lswap l (j - 1) j) (j + 1)
    else (l, j)

/-- One outer step of the rewrite on a `BKY`/`BKN` at index `i`: bubble
it right to just before its target, then overwrite it (at index `j - 1`)
with `FAKE_LAND` (from `BKN`) or `FAKE_LORR` (from `BKY`), operand 0. -/
def convertBkAt (l : List DisIns) (i : Nat) : List DisIns × Nat :=
  let ins := l.getD i default
  let bl := bubbleLoop (toU32 ins.operand) l.length l (i + 1)
  let l2 := bl.1
  let j := bl.2
  let e := l2.getD (j - 1) default
  (l2.set (j - 1)
    ⟨e.location, if ins.opcode = BC_OPCODE_BKN then BC_FAKEOP_LAND else BC_FAKEOP_LORR, 0⟩,
   j)

/-- The outer scan of `convert_bks_to_fake_logic`
(`for (unsigned i = 0; i < slice.size(); ++i)`), by fuel.  After
processing a `BKY`/`BKN` at `i` the scan resumes at `i + 2` (the `i++`
inside the case plus the loop's `++i`). -/
def convertLoop : Nat → List DisIns → Nat → List DisIns
  | 0, l, _ => l
  | fuel + 1, l, i =>
    if i < l.length then
      let ins := l.getD i default
      if ins.opcode = BC_OPCODE_BKN ∨ ins.opcode = BC_OPCODE_BKY then
        convertLoop fuel (convertBkAt l i).1 (i + 2)
      else convertLoop fuel l (i + 1)
    else l

/-- `soren::convert_bks_to_fake_logic` (as called through
`get_bks_as_fake_logic` on a copy of the slice). -/
def convert_bks_to_fake_logic (l : List DisIns) : List DisIns :=
  convertLoop l.length l 0

/-- `op` is `BKY` or `BKN`. -/
def isBK (op : Nat) : Prop := op = BC_OPCODE_BKN ∨ op = BC_OPCODE_BKY

instance (op : Nat) : Decidable (isBK op) := by
  unfold isBK; infer_instance

/-- Checker for the precondition under which the rewrite eliminates all
branch-and-keeps: it replays the scan and demands that the two positions
the scan is about to step over (`i` and `i + 1` of the rewritten list)
hold no `BKY`/`BKN`.  A nested `BKY`/`BKN` swept inside the window of an
outer one lands there and would be skipped by the scan. -/
def convertOk : Nat → List DisIns → Nat → Bool
  | 0, _, _ => true
  | fuel + 1, l, i =>
    if i < l.length then
      let ins := l.getD i default
      if ins.opcode = BC_OPCODE_BKN ∨ ins.opcode = BC_OPCODE_BKY then
        let l2 := (convertBkAt l i).1
        !(decide (isBK (l2.getD i default).opcode)) &&
        !(decide (isBK (l2.getD (i + 1) default).opcode)) &&
        convertOk fuel l2 (i + 2)
      else convertOk fuel l (i + 1)
    else true

/-- Top-level checker matching `convert_bks_to_fake_logic`'s scan. -/
def convert_ok (l : List DisIns) : Bool := convertOk l.length l 0

/-- The synthetic instruction `convertBkAt` writes at `j - 1`. -/
def fakeFor (ins : DisIns) : DisIns :=
  ⟨ins.location, if ins.opcode = BC_OPCODE_BKN then BC_FAKEOP_LAND else BC_FAKEOP_LORR, 0⟩


/-- A right-nested branch-and-keep chain
(`a && (b && c)`: both `BKN`s target location 12): the inner `BKN` lies
inside the window the outer one bubbles over. -/
def bk_chain_nested_example : List DisIns :=
  [⟨0, BC_OPCODE_VAL8, 0⟩, ⟨2, BC_OPCODE_BKN, 12⟩, ⟨5, BC_OPCODE_VAL8, 1⟩,
   ⟨7, BC_OPCODE_BKN, 12⟩, ⟨10, BC_OPCODE_VAL8, 2⟩, ⟨12, BC_OPCODE_BN, 14⟩]

/-- A left-associated branch-and-keep chain
(`(a && b) && c`: the first `BKN` targets the second). -/
def bk_chain_ok_example : List DisIns :=
  [⟨0, BC_OPCODE_VAL8, 0⟩, ⟨2, BC_OPCODE_BKN, 7⟩, ⟨5, BC_OPCODE_VAL8, 1⟩,
   ⟨7, BC_OPCODE_BKN, 12⟩, ⟨10, BC_OPCODE_VAL8, 2⟩, ⟨12, BC_OPCODE_BN, 14⟩]

/-- Where an instruction of the rewritten slice comes from: either it is
an instruction of the original slice, or it is a synthetic logical
opcode with operand 0 standing at the location of an original
`BKN`/`BKY` (`FAKE_LAND` from `BKN`, `FAKE_LORR` from `BKY`). -/
def bk_provenance (l0 : List DisIns) (x : DisIns) : Prop :=
  x ∈ l0 ∨
  (x.operand = 0 ∧ (x.opcode = BC_FAKEOP_LAND ∨ x.opcode = BC_FAKEOP_LORR) ∧
    ∃ y ∈ l0, isBK y.opcode ∧ y.location = x.location ∧
      (x.opcode = BC_FAKEOP_LAND → y.opcode = BC_OPCODE_BKN) ∧
      (x.opcode = BC_FAKEOP_LORR → y.opcode = BC_OPCODE_BKY))

/-! ## AST types (`Expr`, `Stmt`) -/

/-- `Expr::Kind`. -/
inductive ExprKind where
  | IntLiteral | StrLiteral | Named
  | Neg | Not | BitwiseNot | Deref | Addrof
  | Assign | Add | Sub | Mul | Div | Mod | Or | And | Xor | Lsl | Lsr
  | Eq | Ne | Lt | Le | Gt | Ge | EqStr | NeStr | LogicalAnd | LogicalOr
  | Func
  | Invalid
  deriving DecidableEq

/-- `soren::Expr`: kind tag, `literal` (int32), `named` string and owned
children, exactly the four data members of the C++ struct. -/
inductive Expr where
  | mk (kind : ExprKind) (literal : Int) (named : String) (children : List Expr)

/-- `Expr::kind`. -/
def Expr.kind : Expr → ExprKind
  | .mk k _ _ _ => k

/-- `Expr::literal`. -/
def Expr.literal : Expr → Int
  | .mk _ l _ _ => l

/-- `Expr::named`. -/
def Expr.named : Expr → String
  | .mk _ _ n _ => n

/-- `Expr::children`. -/
def Expr.children : Expr → List Expr
  | .mk _ _ _ cs => cs

instance : Inhabited Expr := ⟨.mk .Invalid 0 "" []⟩

/-- `Expr::make_unique_intlit`. -/
def Expr.make_unique_intlit (value : Int) : Expr := .mk .IntLiteral value "" []

/-- `Expr::make_unique_strlit`. -/
def Expr.make_unique_strlit (value : String) : Expr := .mk .StrLiteral 0 value []

/-- `Expr::make_unique_identifier`. -/
def Expr.make_unique_identifier (value : String) : Expr := .mk .Named 0 value []

/-- `Expr::make_unique_unop`. -/
def Expr.make_unique_unop (kind : ExprKind) (inner : Expr) : Expr :=
  .mk kind 0 "" [inner]

/-- `Expr::make_unique_binop`. -/
def Expr.make_unique_binop (kind : ExprKind) (lexpr rexpr : Expr) : Expr :=
  .mk kind 0 "" [lexpr, rexpr]

/-- `Expr::make_unique_copy`: a fresh node with the same `kind`,
`literal` and `named`, and a recursive copy of every child in order. -/
def Expr.make_unique_copy : Expr → Expr
  | .mk k lit nm cs => .mk k lit nm (cs.attach.map fun c => Expr.make_unique_copy c.1)
  decreasing_by
    cases c with
    | mk c hc =>
      have h := List.sizeOf_lt_of_mem hc
      simp only [Expr.mk.sizeOf_spec]
      omega

/-- `Stmt::Kind`. -/
inductive StmtKind where
  | Push | Expr | Goto | GotoIf | Yield | Return
  deriving DecidableEq

/-- `soren::Stmt`. -/
structure Stmt where
  kind : StmtKind
  label : String
  children : List Expr

instance : Inhabited Stmt := ⟨⟨.Push, "", []⟩⟩

/-- `Stmt::make_push`. -/
def Stmt.make_push (inner : Expr) : Stmt := ⟨.Push, "", [inner]⟩

/-- `Stmt::make_goto` (label synthesized as `label_<target>`). -/
def Stmt.make_goto (target : Int) : Stmt :=
  ⟨.Goto, "", [Expr.make_unique_identifier ("label_" ++ toString target)]⟩

/-- `Stmt::make_goto_if` (children: label, then truth condition). -/
def Stmt.make_goto_if (target : Int) (truth : Expr) : Stmt :=
  ⟨.GotoIf, "", [Expr.make_unique_identifier ("label_" ++ toString target), truth]⟩

/-- `Stmt::make_yield`. -/
def Stmt.make_yield : Stmt := ⟨.Yield, "", []⟩

/-- `Stmt::make_return`. -/
def Stmt.make_return (inner : Expr) : Stmt := ⟨.Return, "", [inner]⟩

/-! ## Script container (`SceneInfo`, `ScriptInfo`) -/

/-- `soren::SceneInfo` (the fields `make_statements` reads). -/
structure SceneInfo where
  idx : Nat
  name : String
  kind : Nat
  argCnt : Nat
  varnames : List String
  isGlobal : Bool

instance : Inhabited SceneInfo := ⟨⟨0, "", 0, 0, [], false⟩⟩

/-- Errors of `make_statements` (`throw std::runtime_error` /
`throw false` / the bad-string-pool-offset error of `get_cstr`). -/
inductive EvalErr where
  | expectedPush
  | expectedTwoPushes
  | callArity
  | badStringOffset
  | unsupportedOpcode
  deriving DecidableEq

/-- `soren::ScriptInfo`. -/
structure ScriptInfo where
  scenes : List SceneInfo
  strpool : List Char
  globalnames : List String

/-- `ScriptInfo::get_cstr`: the NUL-terminated string starting at
`offset`, failing when `offset` is at or past the end of the pool. -/
def ScriptInfo.get_cstr (s : ScriptInfo) (offset : Nat) : Except EvalErr String :=
  if s.strpool.length ≤ offset then .error .badStringOffset
  else .ok (String.mk ((s.strpool.drop offset).takeWhile fun c => c ≠ Char.ofNat 0))

/-! ## The symbolic evaluator (`make_statements`,
`src/main.cpp` lines 526-1012).  The statement list is a `List Stmt`
whose *last* element is the vector's `back()`; the helper lambdas
`expect_push`, `expect_push_push`/`binop` and `call` become the
functions below. -/

/-- The `expect_push` helper: fail unless the list is nonempty and its
last statement is a `Push`; then replace that last statement by the
statements `f` produces from it (the C++ lambdas mutate `back()` and/or
push new statements). -/
def expect_push (result : List Stmt) (f : Stmt → List Stmt) :
    Except EvalErr (List Stmt) :=
  match result.getLast? with
  | none => .error .expectedPush
  | some back =>
    if back.kind = StmtKind.Push then .ok (result.dropLast ++ f back)
    else .error .expectedPush

/-- The `binop` helper (via `expect_push_push`): consume the two trailing
`Push` statements and push `Push (Binary kind l r)`. -/
def binop (result : List Stmt) (kind : ExprKind) : Except EvalErr (List Stmt) :=
  if result.length < 2 then .error .expectedTwoPushes
  else
    let rop := result.getD (result.length - 1) default
    if rop.kind ≠ StmtKind.Push then .error .expectedTwoPushes
    else
      let lop := result.getD (result.length - 2) default
      if lop.kind ≠ StmtKind.Push then .error .expectedTwoPushes
      else .ok (result.dropLast.dropLast ++
        [Stmt.make_push (Expr.make_unique_binop kind
          (lop.children.getD 0 default) (rop.children.getD 0 default))])

/-- The `call` helper: consume the trailing `argCnt` `Push` statements in
order and push `Push (Func funcname args)`. -/
def callfn (result : List Stmt) (funcname : String) (argCnt : Nat) :
    Except EvalErr (List Stmt) :=
  if result.length < argCnt then .error .callArity
  else if ¬ ((result.drop (result.length - argCnt)).all
      fun s => s.kind = StmtKind.Push) then .error .callArity
  else .ok (result.take (result.length - argCnt) ++
    [Stmt.make_push (.mk .Func 0 funcname
      ((result.drop (result.length - argCnt)).map fun s => s.children.getD 0 default))])

/-- Reclassify the trailing statement's kind
(`result.back().kind = ...`). -/
def set_last_kind (result : List Stmt) (k : StmtKind) : List Stmt :=
  result.dropLast ++ [{ result.getD (result.length - 1) default with kind := k }]

/-- The body of `make_statements`' per-instruction `switch`.  Vector
indexing by an `int` operand converts it to `std::size_t` (`toU64`);
out-of-range `operator[]` (undefined behaviour in the source) is
modelled by `getD` with a default element. -/
def makeStep (script : ScriptInfo) (scene : SceneInfo) (result : List Stmt)
    (ins : DisIns) : Except EvalErr (List Stmt) :=
  let op := ins.opcode
  if op = BC_OPCODE_NOP then .ok result
  else if op = BC_OPCODE_VAL8 ∨ op = BC_OPCODE_VAL16 then
    .ok (result ++ [Stmt.make_push
      (Expr.make_unique_identifier (scene.varnames.getD (toU64 ins.operand) ""))])
  else if op = BC_OPCODE_VALX8 ∨ op = BC_OPCODE_VALX16 then
    expect_push result fun back =>
      [{ back with children := (back.children.set 0
        (Expr.make_unique_unop .Deref (Expr.make_unique_binop .Add
          (Expr.make_unique_unop .Addrof
            (Expr.make_unique_identifier (scene.varnames.getD (toU64 ins.operand) "")))
          (back.children.getD 0 default)))) }]
  else if op = BC_OPCODE_REF8 ∨ op = BC_OPCODE_REF16 then
    .ok (result ++ [Stmt.make_push (Expr.make_unique_unop .Addrof
      (Expr.make_unique_identifier (scene.varnames.getD (toU64 ins.operand) "")))])
  else if op = BC_OPCODE_REFX8 ∨ op = BC_OPCODE_REFX16 then
    expect_push result fun back =>
      [{ back with children := (back.children.set 0
        (Expr.make_unique_binop .Add
          (Expr.make_unique_unop .Addrof
            (Expr.make_unique_identifier (scene.varnames.getD (toU64 ins.operand) "")))
          (back.children.getD 0 default))) }]
  else if op = BC_OPCODE_GVAL8 ∨ op = BC_OPCODE_GVAL16 then
    .ok (result ++ [Stmt.make_push
      (Expr.make_unique_identifier (script.globalnames.getD (toU64 ins.operand) ""))])
  else if op = BC_OPCODE_GVALX8 ∨ op = BC_OPCODE_GVALX16 then
    expect_push result fun back =>
      [{ back with children := (back.children.set 0
        (Expr.make_unique_unop .Deref (Expr.make_unique_binop .Add
          (Expr.make_unique_unop .Addrof
            (Expr.make_unique_identifier (script.globalnames.getD (toU64 ins.operand) "")))
          (back.children.getD 0 default)))) }]
  else if op = BC_OPCODE_GREF8 ∨ op = BC_OPCODE_GREF16 then
    .ok (result ++ [Stmt.make_push (Expr.make_unique_unop .Addrof
      (Expr.make_unique_identifier (script.globalnames.getD (toU64 ins.operand) "")))])
  else if op = BC_OPCODE_GREFX8 ∨ op = BC_OPCODE_GREFX16 then
    expect_push result fun back =>
      [{ back with children := (back.children.set 0
        (Expr.make_unique_binop .Add
          (Expr.make_unique_unop .Addrof
            (Expr.make_unique_identifier (script.globalnames.getD (toU64 ins.operand) "")))
          (back.children.getD 0 default))) }]
  else if op = BC_OPCODE_NUMBER8 ∨ op = BC_OPCODE_NUMBER16 ∨ op = BC_OPCODE_NUMBER32 then
    .ok (result ++ [Stmt.make_push (Expr.make_unique_intlit ins.operand)])
  else if op = BC_OPCODE_STRING8 ∨ op = BC_OPCODE_STRING16 ∨ op = BC_OPCODE_STRING32 then
    match script.get_cstr (toU32 ins.operand) with
    | .error e => .error e
    | .ok s => .ok (result ++ [Stmt.make_push (Expr.make_unique_strlit s)])
  else if op = BC_OPCODE_DEREF then
    expect_push result fun back =>
      [back, Stmt.make_push (Expr.make_unique_unop .Deref
        (Expr.make_unique_copy (back.children.getD 0 default)))]
  else if op = BC_OPCODE_DISC then
    expect_push result fun back => [{ back with kind := .Expr }]
  else if op = BC_OPCODE_STORE then binop result .Assign
  else if op = BC_OPCODE_ADD then binop result .Add
  else if op = BC_OPCODE_SUB then binop result .Sub
  else if op = BC_OPCODE_MUL then binop result .Mul
  else if op = BC_OPCODE_DIV then binop result .Div
  else if op = BC_OPCODE_MOD then binop result .Mod
  else if op = BC_OPCODE_ORR then binop result .Or
  else if op = BC_OPCODE_AND then binop result .And
  else if op = BC_OPCODE_XOR then binop result .Xor
  else if op = BC_OPCODE_LSL then binop result .Lsl
  else if op = BC_OPCODE_LSR then binop result .Lsr
  else if op = BC_OPCODE_EQ then binop result .Eq
  else if op = BC_OPCODE_NE then binop result .Ne
  else if op = BC_OPCODE_LT then binop result .Lt
  else if op = BC_OPCODE_LE then binop result .Le
  else if op = BC_OPCODE_GT then binop result .Gt
  else if op = BC_OPCODE_GE then binop result .Ge
  else if op = BC_OPCODE_EQSTR then binop result .EqStr
  else if op = BC_OPCODE_NESTR then binop result .NeStr
  else if op = BC_OPCODE_NEG then expect_push result fun back =>
    [{ back with children := (back.children.set 0
      (Expr.make_unique_unop .Neg (back.children.getD 0 default))) }]
  else if op = BC_OPCODE_NOT then expect_push result fun back =>
    [{ back with children := (back.children.set 0
      (Expr.make_unique_unop .Not (back.children.getD 0 default))) }]
  else if op = BC_OPCODE_MVN then expect_push result fun back =>
    [{ back with children := (back.children.set 0
      (Expr.make_unique_unop .BitwiseNot (back.children.getD 0 default))) }]
  else if op = BC_OPCODE_CALL then
    callfn result (script.scenes.getD (toU64 ins.operand) default).name
      (script.scenes.getD (toU64 ins.operand) default).argCnt
  else if op = BC_OPCODE_CALLEXT then
    match script.get_cstr (toU32 (Int.fdiv ins.operand 256)) with
    | .error e => .error e
    | .ok s => callfn result s (i32and ins.operand 0xFF)
  else if op = BC_OPCODE_RETURN then
    expect_push result fun back => [{ back with kind := .Return }]
  else if op = BC_OPCODE_B then
    .ok (result ++ [Stmt.make_goto ins.operand])
  else if op = BC_OPCODE_BN then
    expect_push result fun back =>
      [Stmt.make_goto_if ins.operand
        (Expr.make_unique_unop .Not (back.children.getD 0 default))]
  else if op = BC_OPCODE_BY then
    expect_push result fun back =>
      [Stmt.make_goto_if ins.operand (back.children.getD 0 default)]
  else if op = BC_OPCODE_YIELD then
    .ok (result ++ [Stmt.make_yield])
  else if op = BC_OPCODE_40 then .ok result
  else if op = BC_OPCODE_PRINTF then
    match callfn result "__printf" (toU32 ins.operand) with
    | .error e => .error e
    | .ok r => .ok (set_last_kind r .Expr)
  else if op = BC_OPCODE_DUP then
    expect_push result fun back =>
      [back, Stmt.make_push (Expr.make_unique_copy (back.children.getD 0 default))]
  else if op = BC_OPCODE_RETN then
    .ok (result ++ [Stmt.make_return (Expr.make_unique_intlit 0)])
  else if op = BC_OPCODE_RETY then
    .ok (result ++ [Stmt.make_return (Expr.make_unique_intlit 1)])
  else if op = BC_OPCODE_ASSIGN then
    match binop result .Assign with
    | .error e => .error e
    | .ok r => .ok (set_last_kind r .Expr)
  else if op = BC_FAKEOP_LAND then binop result .LogicalAnd
  else if op = BC_FAKEOP_LORR then binop result .LogicalOr
  else .error .unsupportedOpcode

/-- `soren::make_statements`: fold `makeStep` over the slice. -/
def make_statements (script : ScriptInfo) (scene : SceneInfo)
    (slice : List DisIns) : Except EvalErr (List Stmt) :=
  slice.foldlM (makeStep script scene) []

/-! ## Decoder lemmas -/

/-- The instruction built by `finishIns` carries the opcode it was given. -/
theorem finishIns_opcode (op loc : Nat) (operand : Int) (i lj : Nat) :
    (finishIns op loc operand i lj).1.opcode = op := by
  unfold finishIns
  split
  · rfl
  · split <;> rfl

/-- The instruction built by `finishIns` carries the location it was given. -/
theorem finishIns_location (op loc : Nat) (operand : Int) (i lj : Nat) :
    (finishIns op loc operand i lj).1.location = loc := by
  unfold finishIns
  split
  · rfl
  · split <;> rfl

/-- `finishIns` passes the cursor through unchanged. -/
theorem finishIns_cursor (op loc : Nat) (operand : Int) (i lj : Nat) :
    (finishIns op loc operand i lj).2.1 = i := by
  unfold finishIns
  split
  · rfl
  · split <;> rfl

/-- Only the terminating opcodes can set the `ended` flag. -/
theorem finishIns_ended_return (op loc : Nat) (operand : Int) (i lj : Nat)
    (h : (finishIns op loc operand i lj).2.2.2 = true) : is_return_opcode op := by
  unfold finishIns at h
  split at h
  · simp at h
  · split at h
    · assumption
    · simp at h

/-- Every successful decoder step returns a `finishIns` result on the
opcode byte at the cursor, with a cursor advance of at least one. -/
theorem decodeStep_shape (bytes : List Nat) (i0 lj : Nat)
    (t : DisIns × Nat × Nat × Bool) (h : decodeStep bytes i0 lj = .ok t) :
    ∃ operand i2, i0 < i2 ∧ t = finishIns (bytes.getD i0 0) i0 operand i2 lj := by
  simp only [decodeStep] at h
  split at h
  · simp at h
  · split at h
    · split at h
      · simp at h
      · split at h
        · refine ⟨_, _, ?_, (Except.ok.inj h).symm⟩
          omega
        · refine ⟨_, _, ?_, (Except.ok.inj h).symm⟩
          omega
    · refine ⟨_, _, ?_, (Except.ok.inj h).symm⟩
      omega

/-- A successful decoder step strictly advances the cursor. -/
theorem decodeStep_advances (bytes : List Nat) (i0 lj : Nat)
    (t : DisIns × Nat × Nat × Bool) (h : decodeStep bytes i0 lj = .ok t) :
    i0 < t.2.1 := by
  obtain ⟨operand, i2, hlt, ht⟩ := decodeStep_shape bytes i0 lj t h
  rw [ht]
  rw [show (finishIns (bytes.getD i0 0) i0 operand i2 lj).2.1 = i2 from finishIns_cursor ..]
  exact hlt

/-- A step that sets `ended` decoded a terminating opcode. -/
theorem decodeStep_ended_return (bytes : List Nat) (i0 lj : Nat)
    (ins : DisIns) (i2 lj2 : Nat) (h : decodeStep bytes i0 lj = .ok (ins, i2, lj2, true)) :
    is_return_opcode ins.opcode := by
  obtain ⟨operand, i3, _, ht⟩ := decodeStep_shape bytes i0 lj _ h
  have hop : ins.opcode = bytes.getD i0 0 := by
    rw [show ins = (finishIns (bytes.getD i0 0) i0 operand i3 lj).1 from
      congrArg Prod.fst ht]
    exact finishIns_opcode ..
  have hend : (finishIns (bytes.getD i0 0) i0 operand i3 lj).2.2.2 = true :=
    (congrArg (fun t => t.2.2.2) ht).symm
  rw [hop]
  exact finishIns_ended_return _ _ _ _ _ hend

/-- Bounds established by a successful decoder step: the decoded
instruction sits at the cursor and its declared operand fits (strictly,
when the operand is nonempty) before the end of the script. -/
theorem decodeStep_bound (bytes : List Nat) (i0 lj : Nat)
    (t : DisIns × Nat × Nat × Bool) (h : decodeStep bytes i0 lj = .ok t)
    (hi : i0 < bytes.length) :
    t.1.location + 1 + (opcode_info t.1.opcode).operandSize ≤ bytes.length := by
  obtain ⟨operand, i2, _, ht⟩ := decodeStep_shape bytes i0 lj t h
  have hop : t.1.opcode = bytes.getD i0 0 := by
    rw [show t.1 = (finishIns (bytes.getD i0 0) i0 operand i2 lj).1 from
      congrArg Prod.fst ht]
    exact finishIns_opcode ..
  have hloc : t.1.location = i0 := by
    rw [show t.1 = (finishIns (bytes.getD i0 0) i0 operand i2 lj).1 from
      congrArg Prod.fst ht]
    exact finishIns_location ..
  rw [hop, hloc]
  rcases Nat.eq_zero_or_pos (opcode_info (bytes.getD i0 0)).operandSize with hw | hw
  · omega
  · by_contra hcon
    have hb : bytes.length ≤ i0 + 1 + (opcode_info (bytes.getD i0 0)).operandSize := by
      omega
    have hvalid : ¬ ((opcode_info (bytes.getD i0 0)).validFE10 = false) := by
      intro hv
      simp only [decodeStep, if_pos hv] at h
      exact Except.noConfusion h
    have herr : decodeStep bytes i0 lj = .error .truncatedOperand := by
      simp only [decodeStep, if_neg hvalid, if_pos hw, if_pos hb]
    rw [herr] at h
    cases h

/-- Unfolding of the decoder loop on a non-final step. -/
theorem decodeLoop_cont (bytes : List Nat) (fuel i lj : Nat)
    (ins : DisIns) (i2 lj2 : Nat) (hi : i < bytes.length)
    (hstep : decodeStep bytes i lj = .ok (ins, i2, lj2, false)) :
    decodeLoop bytes (fuel + 1) i lj =
      (decodeLoop bytes fuel i2 lj2).map fun p => (ins :: p.1, p.2) := by
  simp only [decodeLoop, if_pos hi, hstep]
  cases hrec : decodeLoop bytes fuel i2 lj2 with
  | error e => rfl
  | ok p => cases p; rfl

/-- Unfolding of the decoder loop on a final (`ended`) step. -/
theorem decodeLoop_stop (bytes : List Nat) (fuel i lj : Nat)
    (ins : DisIns) (i2 lj2 : Nat) (hi : i < bytes.length)
    (hstep : decodeStep bytes i lj = .ok (ins, i2, lj2, true)) :
    decodeLoop bytes (fuel + 1) i lj = .ok ([ins], true) := by
  simp only [decodeLoop, if_pos hi, hstep]
  rfl

/-- Every instruction produced by the decoder loop satisfies the operand
bound. -/
theorem decodeLoop_bound (fuel : Nat) : ∀ (bytes : List Nat) (i lj : Nat)
    (res : List DisIns) (ed : Bool),
    decodeLoop bytes fuel i lj = .ok (res, ed) →
    ∀ ins ∈ res, ins.location + 1 + (opcode_info ins.opcode).operandSize ≤ bytes.length := by
  induction fuel with
  | zero =>
    intro bytes i lj res ed h ins hins
    rw [decodeLoop] at h
    simp at h
    rw [h.1] at hins
    simp at hins
  | succ fuel ih =>
    intro bytes i lj res ed h ins hins
    rw [decodeLoop] at h
    split at h
    · rename_i hi
      cases hstep : decodeStep bytes i lj with
      | error e => rw [hstep] at h; cases h
      | ok t =>
        obtain ⟨ins1, i2, lj2, ended⟩ := t
        rw [hstep] at h
        by_cases hend : ended = true
        · subst hend
          simp at h
          obtain ⟨hres, -⟩ := h
          rw [← hres] at hins
          simp at hins
          subst hins
          exact decodeStep_bound bytes i lj _ hstep hi
        · rw [Bool.not_eq_true] at hend
          subst hend
          simp only [Bool.false_eq_true, if_false] at h
          cases hrec : decodeLoop bytes fuel i2 lj2 with
          | error e => rw [hrec] at h; cases h
          | ok p =>
            obtain ⟨rest, ed2⟩ := p
            rw [hrec] at h
            simp at h
            obtain ⟨hres, -⟩ := h
            rw [← hres] at hins
            rcases List.mem_cons.mp hins with hins | hins
            · subst hins
              exact decodeStep_bound bytes i lj _ hstep hi
            · exact ih bytes i2 lj2 rest ed2 hrec ins hins
    · cases h
      simp at hins

/-- The decoder step on a terminating opcode: width 0, `ended` decided by
`i + 1 > lastJump`. -/
theorem decodeStep_return (bytes : List Nat) (i lj : Nat)
    (hret : is_return_opcode (bytes.getD i 0)) :
    decodeStep bytes i lj =
      .ok (⟨i, bytes.getD i 0, 0⟩, i + 1, lj, decide (i + 1 > lj)) := by
  obtain h | h | h := hret
  all_goals unfold decodeStep
  all_goals rw [h]
  all_goals
    simp [finishIns, is_jump_opcode, is_return_opcode,
      BC_OPCODE_RETURN, BC_OPCODE_RETN, BC_OPCODE_RETY, BC_OPCODE_B, BC_OPCODE_BY,
      BC_OPCODE_BKY, BC_OPCODE_BN, BC_OPCODE_BKN,
      show opcode_info 49 = ⟨0, false, true, true⟩ from rfl,
      show opcode_info 56 = ⟨0, false, true, true⟩ from rfl,
      show opcode_info 57 = ⟨0, false, true, true⟩ from rfl]

/-- **C1.** The decoder stops at a terminating opcode (`RETURN`, `RETN`,
`RETY`) iff the cursor position just after that opcode is strictly
greater than the running maximum `lastJump` of the jump targets seen so
far: the step's `ended` flag is `decide (i + 1 > lastJump)`; when it is
set the loop returns ending with this instruction, and otherwise a
return at or before the last forward jump target does not terminate
decoding — the loop continues with the next instruction. -/
theorem return_terminates_iff_past_last_jump (bytes : List Nat) (i lj : Nat)
    (hret : is_return_opcode (bytes.getD i 0)) :
    decodeStep bytes i lj =
      .ok (⟨i, bytes.getD i 0, 0⟩, i + 1, lj, decide (i + 1 > lj)) ∧
    (∀ fuel, i < bytes.length → i + 1 > lj →
      decodeLoop bytes (fuel + 1) i lj = .ok ([⟨i, bytes.getD i 0, 0⟩], true)) ∧
    (∀ fuel, i < bytes.length → ¬ (i + 1 > lj) →
      decodeLoop bytes (fuel + 1) i lj =
        (decodeLoop bytes fuel (i + 1) lj).map
          fun p => (⟨i, bytes.getD i 0, 0⟩ :: p.1, p.2)) := by
  have hstep := decodeStep_return bytes i lj hret
  refine ⟨hstep, ?_, ?_⟩
  · intro fuel hi hgt
    rw [decide_eq_true hgt] at hstep
    exact decodeLoop_stop bytes fuel i lj _ (i + 1) lj hi hstep
  · intro fuel hi hle
    rw [decide_eq_false hle] at hstep
    exact decodeLoop_cont bytes fuel i lj _ (i + 1) lj hi hstep

/-- Witness for C1: a lone `RETURN` at cursor 0 with `lastJump = 0`. -/
theorem return_terminates_iff_past_last_jump_witness :
    decodeStep [BC_OPCODE_RETURN] 0 0 =
      .ok (⟨0, [BC_OPCODE_RETURN].getD 0 0, 0⟩, 0 + 1, 0, decide (0 + 1 > 0)) :=
  (return_terminates_iff_past_last_jump [BC_OPCODE_RETURN] 0 0 (by decide)).1

/-- `getLast?` of a cons with nonempty tail. -/
theorem getLast?_cons_ne {α : Type} (a : α) (l : List α) (h : l ≠ []) :
    (a :: l).getLast? = l.getLast? := by
  cases l with
  | nil => exact absurd rfl h
  | cons b t => rfl

/-- **C10.** Whenever the decoder loop terminates with the `ended` flag
set (a terminating opcode reached past the last jump target), the
terminating instruction was appended, so the returned sequence is
non-empty and its last element is that return instruction. -/
theorem ended_decode_last_is_return (bytes : List Nat) (fuel i lj : Nat)
    (res : List DisIns) (h : decodeLoop bytes fuel i lj = .ok (res, true)) :
    res ≠ [] ∧ ∃ ins, res.getLast? = some ins ∧ is_return_opcode ins.opcode := by
  induction fuel generalizing i lj res with
  | zero =>
    rw [decodeLoop] at h
    simp at h
  | succ fuel ih =>
    rw [decodeLoop] at h
    split at h
    · rename_i hi
      cases hstep : decodeStep bytes i lj with
      | error e => rw [hstep] at h; cases h
      | ok t =>
        obtain ⟨ins1, i2, lj2, ended⟩ := t
        rw [hstep] at h
        cases ended with
        | true =>
          simp at h
          rw [← h]
          exact ⟨by simp, ins1, by simp,
            decodeStep_ended_return bytes i lj ins1 i2 lj2 hstep⟩
        | false =>
          simp only [Bool.false_eq_true, if_false] at h
          cases hrec : decodeLoop bytes fuel i2 lj2 with
          | error e => rw [hrec] at h; cases h
          | ok p =>
            obtain ⟨rest, ed⟩ := p
            rw [hrec] at h
            simp at h
            obtain ⟨hres, hed⟩ := h
            rw [hed] at hrec
            obtain ⟨hne, ins, hlast, hretop⟩ := ih i2 lj2 rest hrec
            rw [← hres]
            exact ⟨by simp, ins, by rw [getLast?_cons_ne _ _ hne]; exact hlast, hretop⟩
    · cases h

/-- Witness for C10: decoding `[RETN]` ends with the flag set and the
`RETN` instruction last. -/
theorem ended_decode_last_is_return_witness :
    ([⟨0, BC_OPCODE_RETN, 0⟩] : List DisIns) ≠ [] ∧
    ∃ ins, ([⟨0, BC_OPCODE_RETN, 0⟩] : List DisIns).getLast? = some ins ∧
      is_return_opcode ins.opcode :=
  ended_decode_last_is_return [BC_OPCODE_RETN] 1 0 0 [⟨0, BC_OPCODE_RETN, 0⟩] rfl

/-- **C2 (amended).** Every decoded instruction `x` satisfies
`x.location + 1 + operand_width ≤ |script|`; and decoding an instruction
with nonzero operand width is a hard error unless its operand ends
strictly before the end of the script: when
`|script| ≤ location + 1 + width` — which includes the operand ending
exactly at the end of the script — the decoder throws the truncation
error. -/
theorem instruction_bounds_and_truncation (bytes : List Nat) (i lj : Nat) :
    (∀ res, decode_script bytes = .ok res →
      ∀ ins ∈ res, ins.location + 1 + (opcode_info ins.opcode).operandSize ≤ bytes.length) ∧
    ((opcode_info (bytes.getD i 0)).validFE10 = true →
      0 < (opcode_info (bytes.getD i 0)).operandSize →
      bytes.length ≤ i + 1 + (opcode_info (bytes.getD i 0)).operandSize →
      decodeStep bytes i lj = .error .truncatedOperand) := by
  constructor
  · intro res hres ins hins
    unfold decode_script at hres
    cases hd : decodeLoop bytes bytes.length 0 0 with
    | error e => rw [hd] at hres; cases hres
    | ok p =>
      rw [hd] at hres
      obtain ⟨l, ed⟩ := p
      simp [Except.map] at hres
      rw [← hres] at hins
      exact decodeLoop_bound bytes.length bytes 0 0 l ed hd ins hins
  · intro hv hw hb
    simp only [decodeStep]
    rw [if_neg (show ¬ ((opcode_info (bytes.getD i 0)).validFE10 = false) by
        rw [hv]; simp), if_pos hw, if_pos hb]

/-- Counterexample to C2 as stated: a `NUMBER8` whose one-byte operand
ends exactly at the end of the script (`location + 1 + width = length`)
does **not** decode successfully — the decoder's `>=` bounds check
rejects it with the truncation error. -/
theorem operand_at_exact_end_fails :
    0 + 1 + (opcode_info BC_OPCODE_NUMBER8).operandSize =
      ([BC_OPCODE_NUMBER8, 5] : List Nat).length ∧
    decode_script [BC_OPCODE_NUMBER8, 5] = .error .truncatedOperand :=
  ⟨rfl, rfl⟩

/-- Witness for C2 (amended): the bound holds for the decode of `[RETN]`,
and a `NUMBER8` with its operand ending exactly at the script end is a
truncation error. -/
theorem instruction_bounds_and_truncation_witness :
    (⟨0, BC_OPCODE_RETN, 0⟩ : DisIns).location + 1 +
      (opcode_info (⟨0, BC_OPCODE_RETN, 0⟩ : DisIns).opcode).operandSize ≤
        ([BC_OPCODE_RETN] : List Nat).length ∧
    decodeStep [BC_OPCODE_NUMBER8, 5] 0 0 = .error .truncatedOperand :=
  ⟨(instruction_bounds_and_truncation [BC_OPCODE_RETN] 0 0).1
      [⟨0, BC_OPCODE_RETN, 0⟩] rfl ⟨0, BC_OPCODE_RETN, 0⟩ (by simp),
    (instruction_bounds_and_truncation [BC_OPCODE_NUMBER8, 5] 0 0).2 rfl
      (by decide) (by decide)⟩

set_option maxRecDepth 4096 in
/-- `sign_extend` and the `& 0x80` / `& 0x7F` masks on a byte with clear
top bit. -/
theorem sign_extend_byte_low :
    ∀ b, b < 128 → sign_extend b 8 = (b : Int) ∧ i32and (sign_extend b 8) 0x80 = 0 := by
  decide

set_option maxRecDepth 4096 in
/-- `sign_extend` and the `& 0x80` / `& 0x7F` masks on a byte with set
top bit. -/
theorem sign_extend_byte_high :
    ∀ b, b < 256 → 128 ≤ b →
      i32and (sign_extend b 8) 0x80 = 128 ∧ i32and (sign_extend b 8) 0x7F = b - 128 := by
  decide

/-- `decode_int_be` of a single byte. -/
theorem readBE_one (bytes : List Nat) (j : Nat) : readBE bytes j 1 = bytes.getD j 0 := by
  simp [readBE, List.range_succ]

/-- **C4.** Dialect-A variable-length `CALL`: when the high bit of the
one-byte operand is set, the operand is rebuilt by clearing that bit,
shifting left 8 and adding the next byte, and the cursor advances one
extra byte; a first operand byte below `0x80` stays one byte wide and
decodes to itself. -/
theorem variable_length_call_decoding (bytes : List Nat) (i lj : Nat)
    (hop : bytes.getD i 0 = BC_OPCODE_CALL)
    (hb : bytes.getD (i + 1) 0 < 256)
    (hlen : i + 2 < bytes.length) :
    (bytes.getD (i + 1) 0 < 0x80 →
      decodeStep bytes i lj =
        .ok (⟨i, BC_OPCODE_CALL, (bytes.getD (i + 1) 0 : Int)⟩, i + 2, lj, false)) ∧
    (0x80 ≤ bytes.getD (i + 1) 0 →
      decodeStep bytes i lj =
        .ok (⟨i, BC_OPCODE_CALL,
            ((bytes.getD (i + 1) 0 - 0x80 : Nat) : Int) * 256 + (bytes.getD (i + 2) 0 : Int)⟩,
          i + 3, lj, false)) := by
  have hnotle : ¬ (bytes.length ≤ i + 1 + 1) := by omega
  constructor
  · intro hcase
    obtain ⟨hse, hmask⟩ := sign_extend_byte_low (bytes.getD (i + 1) 0) hcase
    rw [hse] at hmask
    unfold decodeStep
    rw [hop]
    simp only [List.getD_eq_getElem?_getD] at hse hmask ⊢
    simp [finishIns, readBE_one, hse, hmask, hnotle,
      is_jump_opcode, is_return_opcode,
      BC_OPCODE_CALL, BC_OPCODE_B, BC_OPCODE_BY, BC_OPCODE_BKY, BC_OPCODE_BN,
      BC_OPCODE_BKN, BC_OPCODE_RETURN, BC_OPCODE_RETN, BC_OPCODE_RETY,
      show opcode_info 37 = ⟨1, false, true, true⟩ from rfl]
  · intro hcase
    obtain ⟨hmask, hmask7⟩ := sign_extend_byte_high (bytes.getD (i + 1) 0) hb hcase
    unfold decodeStep
    rw [hop]
    simp only [List.getD_eq_getElem?_getD] at hmask hmask7 ⊢
    simp [finishIns, readBE_one, hmask, hmask7, hnotle,
      is_jump_opcode, is_return_opcode,
      BC_OPCODE_CALL, BC_OPCODE_B, BC_OPCODE_BY, BC_OPCODE_BKY, BC_OPCODE_BN,
      BC_OPCODE_BKN, BC_OPCODE_RETURN, BC_OPCODE_RETN, BC_OPCODE_RETY,
      show opcode_info 37 = ⟨1, false, true, true⟩ from rfl]

/-- Witness for C4: `CALL 0x7F` stays one byte and decodes to `0x7F`;
`CALL 0xFF 0x00` decodes to `0x7F00`; `CALL 0x80 0x05` decodes to
`0x0005`. -/
theorem variable_length_call_decoding_witness :
    decodeStep [BC_OPCODE_CALL, 0x7F, 0] 0 0 =
      .ok (⟨0, BC_OPCODE_CALL, 0x7F⟩, 2, 0, false) ∧
    decodeStep [BC_OPCODE_CALL, 0xFF, 0x00, 0] 0 0 =
      .ok (⟨0, BC_OPCODE_CALL, 0x7F00⟩, 3, 0, false) ∧
    decodeStep [BC_OPCODE_CALL, 0x80, 0x05, 0] 0 0 =
      .ok (⟨0, BC_OPCODE_CALL, 0x0005⟩, 3, 0, false) := by
  refine ⟨?_, ?_, ?_⟩
  · rw [(variable_length_call_decoding [BC_OPCODE_CALL, 0x7F, 0] 0 0 rfl (by decide)
      (by decide)).1 (by decide)]
    rfl
  · rw [(variable_length_call_decoding [BC_OPCODE_CALL, 0xFF, 0x00, 0] 0 0 rfl (by decide)
      (by decide)).2 (by decide)]
    rfl
  · rw [(variable_length_call_decoding [BC_OPCODE_CALL, 0x80, 0x05, 0] 0 0 rfl (by decide)
      (by decide)).2 (by decide)]
    rfl

/-- **C5.** For every jump opcode (`B`, `BY`, `BN`, `BKY`, `BKN`), the
decoder stores as operand the absolute target
`(cursor after the operand) + (sign-extended relative operand) -
operand_width` (in 32-bit arithmetic), not the encoded displacement, and
raises `lastJump` to that target. -/
theorem jump_operand_absolute_target (bytes : List Nat) (i lj : Nat)
    (hj : is_jump_opcode (bytes.getD i 0)) (hlen : i + 3 < bytes.length) :
    decodeStep bytes i lj =
      .ok (⟨i, bytes.getD i 0,
          toI32 (((i + 3 : Nat) : Int) + sign_extend (readBE bytes (i + 1) 2) 16 - 2)⟩,
        i + 3,
        max lj (toU32
          (toI32 (((i + 3 : Nat) : Int) + sign_extend (readBE bytes (i + 1) 2) 16 - 2))),
        false) := by
  have hnotle : ¬ (bytes.length ≤ i + 1 + 2) := by omega
  obtain h | h | h | h | h := hj
  all_goals unfold decodeStep
  all_goals rw [h]
  all_goals
    simp [finishIns, hnotle, is_jump_opcode, is_return_opcode,
      BC_OPCODE_CALL, BC_OPCODE_B, BC_OPCODE_BY, BC_OPCODE_BKY, BC_OPCODE_BN,
      BC_OPCODE_BKN, BC_OPCODE_RETURN, BC_OPCODE_RETN, BC_OPCODE_RETY,
      show opcode_info 50 = ⟨2, true, true, true⟩ from rfl,
      show opcode_info 52 = ⟨2, true, true, true⟩ from rfl,
      show opcode_info 59 = ⟨2, true, true, true⟩ from rfl,
      show opcode_info 51 = ⟨2, true, true, true⟩ from rfl,
      show opcode_info 60 = ⟨2, true, true, true⟩ from rfl]
  all_goals
    have harith : ((i : Int) + 1 + 2 + sign_extend (readBE bytes (i + 1) 2) 16 - 2) =
        ((i : Int) + 3 + sign_extend (readBE bytes (i + 1) 2) 16 - 2) := by ring
    rw [harith]
    exact ⟨rfl, rfl⟩

/-- Witness for C5: `B` at location 0 with displacement 3 decodes to the
absolute target `3 + 3 - 2 = 4`, and `lastJump` becomes 4. -/
theorem jump_operand_absolute_target_witness :
    decodeStep [BC_OPCODE_B, 0, 3, 0, 0] 0 0 =
      .ok (⟨0, BC_OPCODE_B, 4⟩, 3, 4, false) := by
  rw [jump_operand_absolute_target [BC_OPCODE_B, 0, 3, 0, 0] 0 0 (by decide) (by decide)]
  rfl

/-! ## Slicer: characterization of the slice-point set (C7) -/

/-- Membership after one step of the slice-point loop. -/
theorem mem_slicePointStep (pts : Finset Nat) (ins : DisIns) (p : Nat) :
    p ∈ slicePointStep true pts ins ↔ p ∈ pts ∨ slice_point_contrib ins p := by
  unfold slicePointStep slice_point_contrib
  by_cases hbk : ins.opcode = BC_OPCODE_BKN ∨ ins.opcode = BC_OPCODE_BKY
  · simp [hbk]
  · rw [if_neg (by simpa using hbk)]
    by_cases hj : (opcode_info ins.opcode).isJump = true
    · rw [if_pos hj]
      by_cases hr : ins.opcode = BC_OPCODE_RETURN
      · rw [if_pos hr]
        simp only [Finset.mem_insert]
        tauto
      · rw [if_neg hr]
        simp only [Finset.mem_insert]
        tauto
    · rw [if_neg hj]
      by_cases hr : ins.opcode = BC_OPCODE_RETURN
      · rw [if_pos hr]
        simp only [Finset.mem_insert]
        tauto
      · rw [if_neg hr]
        tauto

/-- Membership in the slice-point fold, for any accumulator. -/
theorem mem_slice_points_foldl (l : List DisIns) : ∀ (s : Finset Nat) (p : Nat),
    p ∈ l.foldl (slicePointStep true) s ↔
      p ∈ s ∨ ∃ ins ∈ l, slice_point_contrib ins p := by
  induction l with
  | nil => intro s p; simp
  | cons a t ih =>
    intro s p
    rw [List.foldl_cons, ih, mem_slicePointStep]
    constructor
    · rintro ((hs | hc) | ⟨ins, hmem, hc⟩)
      · exact Or.inl hs
      · exact Or.inr ⟨a, by simp, hc⟩
      · exact Or.inr ⟨ins, by simp [hmem], hc⟩
    · rintro (hs | ⟨ins, hmem, hc⟩)
      · exact Or.inl (Or.inl hs)
      · rcases List.mem_cons.mp hmem with h | h
        · exact Or.inl (Or.inr (h ▸ hc))
        · exact Or.inr ⟨ins, h, hc⟩

/-- **C7.** With the default suppression of `BKY`/`BKN`, the slicer's
slice-point set is exactly: for each jump instruction that is not a
`BKY`/`BKN`, the location immediately after the jump
(`location + 1 + operand_width`) and the jump's target location; plus,
for each `RETURN`, the location immediately after it; `BKY` and `BKN`
contribute no slice points. -/
theorem slice_points_characterization (script : List DisIns) (p : Nat) :
    p ∈ slice_points script true ↔
      (∃ ins ∈ script, (opcode_info ins.opcode).isJump = true ∧
        ¬ (ins.opcode = BC_OPCODE_BKN ∨ ins.opcode = BC_OPCODE_BKY) ∧
        (p = ins.location + 1 + (opcode_info ins.opcode).operandSize ∨
         p = toU64 ins.operand)) ∨
      (∃ ins ∈ script, ins.opcode = BC_OPCODE_RETURN ∧ p = ins.location + 1) := by
  unfold slice_points
  rw [mem_slice_points_foldl]
  simp only [Finset.not_mem_empty, false_or]
  constructor
  · rintro ⟨ins, hmem, hnbk, hJ | hR⟩
    · exact Or.inl ⟨ins, hmem, hJ.1, hnbk, hJ.2⟩
    · exact Or.inr ⟨ins, hmem, hR⟩
  · rintro (⟨ins, hmem, hj, hnbk, hp⟩ | ⟨ins, hmem, hr, hp⟩)
    · exact ⟨ins, hmem, hnbk, Or.inl ⟨hj, hp⟩⟩
    · refine ⟨ins, hmem, ?_, Or.inr ⟨hr, hp⟩⟩
      rw [hr]
      decide

/-! ## Branch-and-keep rewrite: C3 and C6 -/

/-- **C3 (code bug).** A `BKN` whose target location matches no later
instruction in the slice is **not** rejected: the rewrite completes
normally, bubbling the `BKN` to the end of the slice and replacing it by
`FAKE_LAND`.  The function has no error channel at all, so no
cross-slice error (error kind 5) can be signalled; the source only
carries a `TODO` comment about this case at the call site. -/
theorem cross_slice_bk_completes_without_error :
    convert_bks_to_fake_logic [⟨0, BC_OPCODE_BKN, 99⟩, ⟨3, BC_OPCODE_VAL8, 1⟩] =
      [⟨3, BC_OPCODE_VAL8, 1⟩, ⟨0, BC_FAKEOP_LAND, 0⟩] := rfl

/-- `getD` after `set` at the same (in-range) index. -/
theorem getD_set_self {α : Type} (l : List α) (n : Nat) (a d : α)
    (h : n < l.length) : (l.set n a).getD n d = a := by
  rw [List.getD_eq_getElem?_getD, List.getElem?_set_self (by simpa using h)]
  rfl

/-- `getD` after `set` at a different index. -/
theorem getD_set_ne {α : Type} (l : List α) (n m : Nat) (a d : α)
    (h : n ≠ m) : (l.set n a).getD m d = l.getD m d := by
  rw [List.getD_eq_getElem?_getD, List.getElem?_set_ne h, ← List.getD_eq_getElem?_getD]

/-- An in-range `getD` is a member. -/
theorem getD_mem {α : Type} (l : List α) (n : Nat) (d : α) (h : n < l.length) :
    l.getD n d ∈ l := by
  rw [List.getD_eq_getElem l d h]
  exact List.getElem_mem h

/-- Writing back the element already present is the identity. -/
theorem set_getD_self {α : Type} (l : List α) (d : α) :
    ∀ (n : Nat), n < l.length → l.set n (l.getD n d) = l := by
  induction l with
  | nil => intro n h; simp at h
  | cons x t ih =>
    intro n h
    cases n with
    | zero => rfl
    | succ m =>
      simp only [List.getD_cons_succ, List.set_cons_succ]
      rw [ih m (by simpa using h)]

/-- An adjacent `lswap` is a permutation. -/
theorem lswap_adj_perm : ∀ (l : List DisIns) (a : Nat), a + 1 < l.length →
    List.Perm (lswap l a (a + 1)) l := by
  intro l
  induction l with
  | nil => intro a h; simp at h
  | cons x t ih =>
    intro a h
    cases a with
    | zero =>
      cases t with
      | nil => simp at h
      | cons y t2 => exact List.Perm.swap x y t2
    | succ m =>
      have hstep : lswap (x :: t) (m + 1) (m + 2) = x :: lswap t m (m + 1) := by
        simp [lswap]
      rw [hstep]
      exact List.Perm.cons x (ih m (by simpa using h))

/-- `getD` through `map (·.location)`. -/
theorem getD_map_location (l : List DisIns) : ∀ (n : Nat),
    (l.map fun x => x.location).getD n 0 = (l.getD n default).location := by
  induction l with
  | nil => intro n; rfl
  | cons x t ih =>
    intro n
    cases n with
    | zero => rfl
    | succ m => simpa using ih m

/-- Every member sits at some in-range `getD` index. -/
theorem mem_iff_exists_getD {α : Type} [Inhabited α] {x : α} : ∀ {l : List α},
    x ∈ l → ∃ k, k < l.length ∧ l.getD k default = x := by
  intro l
  induction l with
  | nil => intro h; simp at h
  | cons a t ih =>
    intro h
    rcases List.mem_cons.mp h with h | h
    · exact ⟨0, by simp, h.symm⟩
    · obtain ⟨k, hk, hg⟩ := ih h
      exact ⟨k + 1, by simpa using hk, hg⟩

/-- The bubbling loop preserves the list length. -/
theorem bubbleLoop_length (target : Nat) : ∀ (fuel : Nat) (l : List DisIns) (j : Nat),
    ((bubbleLoop target fuel l j).1).length = l.length := by
  intro fuel
  induction fuel with
  | zero => intro l j; rfl
  | succ fuel ih =>
    intro l j
    rw [bubbleLoop]
    split
    · split
      · rfl
      · rw [ih]
        simp [lswap]
    · rfl

/-- The bubbling loop never decreases `j`. -/
theorem bubbleLoop_j_ge (target : Nat) : ∀ (fuel : Nat) (l : List DisIns) (j : Nat),
    j ≤ (bubbleLoop target fuel l j).2 := by
  intro fuel
  induction fuel with
  | zero => intro l j; exact Nat.le_refl j
  | succ fuel ih =>
    intro l j
    rw [bubbleLoop]
    split
    · split
      · exact Nat.le_refl j
      · exact Nat.le_trans (Nat.le_succ j) (by simpa [lswap] using ih (lswap l (j - 1) j) (j + 1))
    · exact Nat.le_refl j

/-- The bubbling loop keeps `j` within the list. -/
theorem bubbleLoop_j_le (target : Nat) : ∀ (fuel : Nat) (l : List DisIns) (j : Nat),
    j ≤ l.length → (bubbleLoop target fuel l j).2 ≤ l.length := by
  intro fuel
  induction fuel with
  | zero => intro l j h; exact h
  | succ fuel ih =>
    intro l j h
    rw [bubbleLoop]
    split
    · split
      · exact h
      · rename_i hj _
        have := ih (lswap l (j - 1) j) (j + 1) (by simpa [lswap] using hj)
        simpa [lswap] using this
    · exact h

/-- The bubbling loop does not touch positions before `j - 1`. -/
theorem bubbleLoop_untouched (target : Nat) : ∀ (fuel : Nat) (l : List DisIns) (j k : Nat),
    k + 1 < j → ((bubbleLoop target fuel l j).1).getD k default = l.getD k default := by
  intro fuel
  induction fuel with
  | zero => intro l j k _; rfl
  | succ fuel ih =>
    intro l j k hk
    rw [bubbleLoop]
    split
    · split
      · rfl
      · rw [ih (lswap l (j - 1) j) (j + 1) k (by omega)]
        unfold lswap
        rw [getD_set_ne _ _ _ _ _ (by omega), getD_set_ne _ _ _ _ _ (by omega)]
    · rfl

/-- The element being bubbled (initially at `j - 1`) lands at position
`J - 1`, where `J` is the loop's final index. -/
theorem bubbleLoop_land (target : Nat) : ∀ (fuel : Nat) (l : List DisIns) (j : Nat),
    1 ≤ j →
    ((bubbleLoop target fuel l j).1).getD ((bubbleLoop target fuel l j).2 - 1) default =
      l.getD (j - 1) default := by
  intro fuel
  induction fuel with
  | zero => intro l j _; rfl
  | succ fuel ih =>
    intro l j hj
    rw [bubbleLoop]
    split
    · split
      · rfl
      · rename_i hlt _
        rw [ih (lswap l (j - 1) j) (j + 1) (by omega)]
        show (lswap l (j - 1) j).getD (j + 1 - 1) default = l.getD (j - 1) default
        unfold lswap
        rw [show j + 1 - 1 = j from rfl]
        rw [getD_set_self _ _ _ _ (by simpa using hlt)]
    · rfl

/-- The bubbling loop permutes the list. -/
theorem bubbleLoop_perm (target : Nat) : ∀ (fuel : Nat) (l : List DisIns) (j : Nat),
    1 ≤ j → List.Perm ((bubbleLoop target fuel l j).1) l := by
  intro fuel
  induction fuel with
  | zero => intro l j _; exact List.Perm.refl l
  | succ fuel ih =>
    intro l j hj
    rw [bubbleLoop]
    split
    · split
      · exact List.Perm.refl l
      · rename_i hlt _
        have hswap : List.Perm (lswap l (j - 1) j) l := by
          have := lswap_adj_perm l (j - 1) (by omega)
          rwa [show j - 1 + 1 = j from by omega] at this
        exact List.Perm.trans (ih (lswap l (j - 1) j) (j + 1) (by omega)) hswap
    · exact List.Perm.refl l

/-- Rewriting one branch-and-keep preserves the slice length. -/
theorem convertBkAt_length (l : List DisIns) (i : Nat) :
    ((convertBkAt l i).1).length = l.length := by
  unfold convertBkAt
  simp [bubbleLoop_length]

/-- The final bubbling index of `convertBkAt` is at least `i + 1`. -/
theorem convertBkAt_j_ge (l : List DisIns) (i : Nat) : i + 1 ≤ (convertBkAt l i).2 :=
  bubbleLoop_j_ge _ _ _ _

/-- Rewriting one branch-and-keep at `i` leaves positions before `i`
untouched. -/
theorem convertBkAt_untouched (l : List DisIns) (i k : Nat) (hk : k < i) :
    ((convertBkAt l i).1).getD k default = l.getD k default := by
  have hge := bubbleLoop_j_ge (toU32 (l.getD i default).operand) l.length l (i + 1)
  unfold convertBkAt
  rw [getD_set_ne _ _ _ _ _ (by omega)]
  exact bubbleLoop_untouched _ _ _ _ _ (by omega)

/-- Every element of the rewritten slice is an original element or the
synthetic replacement of the branch-and-keep at `i`. -/
theorem convertBkAt_mem (l : List DisIns) (i : Nat) (hi : i < l.length) (x : DisIns)
    (hx : x ∈ (convertBkAt l i).1) : x ∈ l ∨ x = fakeFor (l.getD i default) := by
  unfold convertBkAt at hx
  rcases List.mem_or_eq_of_mem_set hx with hx | hx
  · exact Or.inl ((bubbleLoop_perm _ _ _ _ (by omega)).mem_iff.mp hx)
  · right
    rw [hx]
    unfold fakeFor
    rw [bubbleLoop_land _ _ _ _ (by omega)]
    simp

/-- Rewriting one branch-and-keep permutes the slice's locations. -/
theorem convertBkAt_loc_perm (l : List DisIns) (i : Nat) (hi : i < l.length) :
    List.Perm ((convertBkAt l i).1.map fun x => x.location) (l.map fun x => x.location) := by
  have hge := bubbleLoop_j_ge (toU32 (l.getD i default).operand) l.length l (i + 1)
  have hle := bubbleLoop_j_le (toU32 (l.getD i default).operand) l.length l (i + 1)
    (by omega)
  have hlen := bubbleLoop_length (toU32 (l.getD i default).operand) l.length l (i + 1)
  unfold convertBkAt
  dsimp only
  rw [List.map_set]
  dsimp only
  rw [← getD_map_location]
  rw [set_getD_self _ 0 _ (by simp only [List.length_map, hlen]; omega)]
  exact List.Perm.map _ (bubbleLoop_perm _ _ _ _ (by omega))

/-- Under the checker's precondition, the scan leaves no `BKY`/`BKN` in
the slice (invariant form: positions already scanned are clean). -/
theorem convertLoop_noBK : ∀ (fuel : Nat) (l : List DisIns) (i : Nat),
    l.length ≤ fuel + i → convertOk fuel l i = true →
    (∀ k, k < i → ¬ isBK ((l.getD k default).opcode)) →
    ∀ x ∈ convertLoop fuel l i, ¬ isBK x.opcode := by
  intro fuel
  induction fuel with
  | zero =>
    intro l i hlen _ hinv x hx
    simp only [convertLoop] at hx
    obtain ⟨k, hk, hg⟩ := mem_iff_exists_getD hx
    rw [← hg]
    exact hinv k (by omega)
  | succ fuel ih =>
    intro l i hlen hok hinv x hx
    simp only [convertLoop] at hx
    simp only [convertOk] at hok
    split at hx
    · rename_i hi
      rw [if_pos hi] at hok
      split at hx
      · rename_i hbk
        rw [if_pos hbk] at hok
        simp only [Bool.and_eq_true, Bool.not_eq_true', decide_eq_false_iff_not] at hok
        obtain ⟨⟨h1, h2⟩, h3⟩ := hok
        refine ih _ (i + 2) ?_ h3 ?_ x hx
        · rw [convertBkAt_length]
          omega
        · intro k hk
          rcases Nat.lt_or_ge k i with hki | hki
          · rw [convertBkAt_untouched l i k hki]
            exact hinv k hki
          · rcases Nat.lt_or_ge k (i + 1) with hki2 | hki2
            · rw [show k = i from by omega]
              exact h1
            · rw [show k = i + 1 from by omega]
              exact h2
      · rename_i hbk
        rw [if_neg hbk] at hok
        refine ih l (i + 1) (by omega) hok ?_ x hx
        intro k hk
        rcases Nat.lt_or_ge k i with hki | hki
        · exact hinv k hki
        · rw [show k = i from by omega]
          exact hbk
    · rename_i hi
      obtain ⟨k, hk, hg⟩ := mem_iff_exists_getD hx
      rw [← hg]
      exact hinv k (by omega)

/-- The scan preserves the multiset of instruction locations. -/
theorem convertLoop_loc_perm : ∀ (fuel : Nat) (l : List DisIns) (i : Nat),
    List.Perm ((convertLoop fuel l i).map fun x => x.location)
      (l.map fun x => x.location) := by
  intro fuel
  induction fuel with
  | zero => intro l i; exact List.Perm.refl _
  | succ fuel ih =>
    intro l i
    simp only [convertLoop]
    split
    · rename_i hi
      split
      · rename_i hbk
        exact List.Perm.trans (ih (convertBkAt l i).1 (i + 2)) (convertBkAt_loc_perm l i hi)
      · exact ih l (i + 1)
    · exact List.Perm.refl _

/-- Every instruction of the rewritten slice is an original instruction
or a `FAKE_LAND`/`FAKE_LORR` with operand 0 at the location of an
original `BKN`/`BKY`. -/
theorem convertLoop_provenance (l0 : List DisIns) : ∀ (fuel : Nat) (l : List DisIns)
    (i : Nat), (∀ x ∈ l, bk_provenance l0 x) →
    ∀ x ∈ convertLoop fuel l i, bk_provenance l0 x := by
  intro fuel
  induction fuel with
  | zero => intro l i hprov x hx; exact hprov x hx
  | succ fuel ih =>
    intro l i hprov x hx
    simp only [convertLoop] at hx
    split at hx
    · rename_i hi
      split at hx
      · rename_i hbk
        refine ih (convertBkAt l i).1 (i + 2) ?_ x hx
        intro y hy
        rcases convertBkAt_mem l i hi y hy with hy | hy
        · exact hprov y hy
        · have hins : l.getD i default ∈ l := getD_mem _ _ _ hi
          have hinsl0 : l.getD i default ∈ l0 := by
            rcases hprov _ hins with h | ⟨-, hfake, -⟩
            · exact h
            · exfalso
              rcases hbk with hb | hb <;> rcases hfake with hf | hf <;>
                rw [hb] at hf <;> simp [BC_OPCODE_BKN, BC_OPCODE_BKY,
                  BC_FAKEOP_LAND, BC_FAKEOP_LORR] at hf
          by_cases hbkn : (l.getD i default).opcode = BC_OPCODE_BKN
          · have hfake : fakeFor (l.getD i default) =
                ⟨(l.getD i default).location, BC_FAKEOP_LAND, 0⟩ := by
              unfold fakeFor
              rw [if_pos hbkn]
            rw [hy, hfake]
            unfold bk_provenance
            exact Or.inr ⟨rfl, Or.inl rfl, l.getD i default, hinsl0,
              Or.inl hbkn, rfl, fun _ => hbkn,
              fun hcon => absurd hcon (by simp [BC_FAKEOP_LAND, BC_FAKEOP_LORR])⟩
          · have hbky : (l.getD i default).opcode = BC_OPCODE_BKY := by tauto
            have hfake : fakeFor (l.getD i default) =
                ⟨(l.getD i default).location, BC_FAKEOP_LORR, 0⟩ := by
              unfold fakeFor
              rw [if_neg hbkn]
            rw [hy, hfake]
            unfold bk_provenance
            exact Or.inr ⟨rfl, Or.inr rfl, l.getD i default, hinsl0,
              Or.inr hbky, rfl,
              fun hcon => absurd hcon (by simp [BC_FAKEOP_LAND, BC_FAKEOP_LORR]),
              fun _ => hbky⟩
      · exact ih l (i + 1) hprov x hx
    · exact hprov x hx

/-- Counterexample to C6 as stated: in the right-nested chain
`VAL8 0; BKN →12; VAL8 1; BKN →12; VAL8 2; BN →14` the inner `BKN` is
swept inside the outer one's window and the scan skips it, so a `BKN`
survives the rewrite. -/
theorem nested_bk_survives_rewrite :
    (convert_bks_to_fake_logic bk_chain_nested_example).any
      (fun x => decide (isBK x.opcode)) = true := rfl

/-- **C6 (amended).** For every slice accepted by the scan-replay check
`convert_ok` — the scan never sweeps a `BKY`/`BKN` into an
already-scanned position, which holds in particular when no `BKY`/`BKN`
lies between another one and its target — after the rewrite no
`BKY`/`BKN` remains: every instruction is an original non-branch-and-keep
instruction or a `FAKE_LAND` (from `BKN`) / `FAKE_LORR` (from `BKY`)
with operand zero standing at the replaced instruction's location, and
the multiset of location fields is unchanged (only the order changes). -/
theorem rewrite_eliminates_bks (l : List DisIns) (hok : convert_ok l = true) :
    (∀ x ∈ convert_bks_to_fake_logic l, ¬ isBK x.opcode) ∧
    List.Perm ((convert_bks_to_fake_logic l).map fun x => x.location)
      (l.map fun x => x.location) ∧
    (∀ x ∈ convert_bks_to_fake_logic l, bk_provenance l x) := by
  refine ⟨?_, ?_, ?_⟩
  · exact convertLoop_noBK l.length l 0 (by omega) hok (by omega)
  · exact convertLoop_loc_perm l.length l 0
  · exact convertLoop_provenance l l.length l 0 (fun x hx => Or.inl hx)

/-- Witness for C6 (amended): the left-associated chain
`VAL8 0; BKN →7; VAL8 1; BKN →12; VAL8 2; BN →14` passes the checker,
so the rewrite eliminates both `BKN`s. -/
theorem rewrite_eliminates_bks_witness :
    convert_ok bk_chain_ok_example = true ∧
    ((∀ x ∈ convert_bks_to_fake_logic bk_chain_ok_example, ¬ isBK x.opcode) ∧
      List.Perm ((convert_bks_to_fake_logic bk_chain_ok_example).map fun x => x.location)
        (bk_chain_ok_example.map fun x => x.location) ∧
      (∀ x ∈ convert_bks_to_fake_logic bk_chain_ok_example,
        bk_provenance bk_chain_ok_example x)) :=
  ⟨rfl, rewrite_eliminates_bks bk_chain_ok_example rfl⟩

/-! ## Evaluator: C8 (STORE vs ASSIGN) and C9 (deep copy) -/

/-- **C9.** The deep copy made for `DUP` / `DEREF` duplication is
structurally equal to its source: same kind tag, same literal, same name
string, and recursively equal children in the same order — in the value
semantics of the embedding, `make_unique_copy e = e`. -/
theorem make_unique_copy_eq : ∀ (e : Expr), e.make_unique_copy = e := by
  intro e
  induction e using Expr.make_unique_copy.induct
  rename_i k lit nm cs ih
  rw [Expr.make_unique_copy]
  congr 1
  calc cs.attach.map (fun c => Expr.make_unique_copy c.1)
      = cs.attach.map (fun c => c.1) := by
        apply List.map_congr_left
        intro c hc
        exact ih c
    _ = cs := by simp

/-- `getD` of the element appended at the end. -/
theorem getD_append_len {α : Type} : ∀ (pre : List α) (s d : α),
    (pre ++ [s]).getD pre.length d = s := by
  intro pre s d
  rw [List.getD_append_right _ _ _ _ (Nat.le_refl _)]
  simp

/-- `binop` on a statement list ending in two pushes. -/
theorem binop_two_pushes (pre : List Stmt) (la lb : String) (ea eb : Expr)
    (k : ExprKind) :
    binop (pre ++ [⟨.Push, la, [ea]⟩, ⟨.Push, lb, [eb]⟩]) k =
      .ok (pre ++ [Stmt.make_push (Expr.make_unique_binop k ea eb)]) := by
  have hsplit : pre ++ [(⟨.Push, la, [ea]⟩ : Stmt), ⟨.Push, lb, [eb]⟩] =
      (pre ++ [⟨.Push, la, [ea]⟩]) ++ [⟨.Push, lb, [eb]⟩] := by simp
  have hlen : (pre ++ [(⟨.Push, la, [ea]⟩ : Stmt), ⟨.Push, lb, [eb]⟩]).length =
      pre.length + 2 := by simp
  unfold binop
  rw [if_neg (by rw [hlen]; omega)]
  rw [hlen]
  rw [show pre.length + 2 - 1 = (pre ++ [(⟨.Push, la, [ea]⟩ : Stmt)]).length from by simp]
  rw [show pre.length + 2 - 2 = pre.length from by omega]
  rw [hsplit, getD_append_len]
  rw [List.getD_append _ _ _ _ (by simp), getD_append_len]
  rw [if_neg (by simp)]
  rw [if_neg (by simp)]
  rw [List.dropLast_concat, List.dropLast_concat]
  rfl

/-- `result.back().kind = k` on a statement list ending in one
statement. -/
theorem set_last_kind_append (pre : List Stmt) (s : Stmt) (k : StmtKind) :
    set_last_kind (pre ++ [s]) k = pre ++ [{ s with kind := k }] := by
  unfold set_last_kind
  rw [List.dropLast_concat]
  rw [show (pre ++ [s]).length - 1 = pre.length from by simp]
  rw [getD_append_len]

/-- **C8.** The evaluator distinguishes `STORE` from `ASSIGN`: with two
`Push` statements carrying `a` then `b` on top of the shadow stack,
`STORE` replaces them with the single statement `Push (Assign a b)` (the
assigned value stays on the shadow stack), while `ASSIGN` replaces them
with `Expr (Assign a b)` (the value is discarded from the shadow
stack). -/
theorem store_vs_assign (script : ScriptInfo) (scene : SceneInfo) (pre : List Stmt)
    (la lb : String) (ea eb : Expr) (loc1 loc2 : Nat) (v1 v2 : Int) :
    makeStep script scene (pre ++ [⟨.Push, la, [ea]⟩, ⟨.Push, lb, [eb]⟩])
        ⟨loc1, BC_OPCODE_STORE, v1⟩ =
      .ok (pre ++ [Stmt.make_push (Expr.make_unique_binop .Assign ea eb)]) ∧
    makeStep script scene (pre ++ [⟨.Push, la, [ea]⟩, ⟨.Push, lb, [eb]⟩])
        ⟨loc2, BC_OPCODE_ASSIGN, v2⟩ =
      .ok (pre ++ [⟨.Expr, "", [Expr.make_unique_binop .Assign ea eb]⟩]) := by
  constructor
  · show makeStep _ _ _ _ = _
    unfold makeStep
    norm_num [BC_OPCODE_NOP, BC_OPCODE_VAL8, BC_OPCODE_VAL16, BC_OPCODE_VALX8,
      BC_OPCODE_VALX16, BC_OPCODE_REF8, BC_OPCODE_REF16, BC_OPCODE_REFX8,
      BC_OPCODE_REFX16, BC_OPCODE_GVAL8, BC_OPCODE_GVAL16, BC_OPCODE_GVALX8,
      BC_OPCODE_GVALX16, BC_OPCODE_GREF8, BC_OPCODE_GREF16, BC_OPCODE_GREFX8,
      BC_OPCODE_GREFX16, BC_OPCODE_NUMBER8, BC_OPCODE_NUMBER16, BC_OPCODE_NUMBER32,
      BC_OPCODE_STRING8, BC_OPCODE_STRING16, BC_OPCODE_STRING32, BC_OPCODE_DEREF,
      BC_OPCODE_DISC, BC_OPCODE_STORE]
    exact binop_two_pushes pre la lb ea eb .Assign
  · show makeStep _ _ _ _ = _
    unfold makeStep
    norm_num [BC_OPCODE_NOP, BC_OPCODE_VAL8, BC_OPCODE_VAL16, BC_OPCODE_VALX8,
      BC_OPCODE_VALX16, BC_OPCODE_REF8, BC_OPCODE_REF16, BC_OPCODE_REFX8,
      BC_OPCODE_REFX16, BC_OPCODE_GVAL8, BC_OPCODE_GVAL16, BC_OPCODE_GVALX8,
      BC_OPCODE_GVALX16, BC_OPCODE_GREF8, BC_OPCODE_GREF16, BC_OPCODE_GREFX8,
      BC_OPCODE_GREFX16, BC_OPCODE_NUMBER8, BC_OPCODE_NUMBER16, BC_OPCODE_NUMBER32,
      BC_OPCODE_STRING8, BC_OPCODE_STRING16, BC_OPCODE_STRING32, BC_OPCODE_DEREF,
      BC_OPCODE_DISC, BC_OPCODE_STORE, BC_OPCODE_ADD, BC_OPCODE_SUB, BC_OPCODE_MUL,
      BC_OPCODE_DIV, BC_OPCODE_MOD, BC_OPCODE_ORR, BC_OPCODE_AND, BC_OPCODE_XOR,
      BC_OPCODE_LSL, BC_OPCODE_LSR, BC_OPCODE_EQ, BC_OPCODE_NE, BC_OPCODE_LT,
      BC_OPCODE_LE, BC_OPCODE_GT, BC_OPCODE_GE, BC_OPCODE_EQSTR, BC_OPCODE_NESTR,
      BC_OPCODE_NEG, BC_OPCODE_NOT, BC_OPCODE_MVN, BC_OPCODE_CALL, BC_OPCODE_CALLEXT,
      BC_OPCODE_RETURN, BC_OPCODE_B, BC_OPCODE_BN, BC_OPCODE_BY, BC_OPCODE_YIELD,
      BC_OPCODE_40, BC_OPCODE_PRINTF, BC_OPCODE_DUP, BC_OPCODE_RETN, BC_OPCODE_RETY,
      BC_OPCODE_ASSIGN]
    rw [binop_two_pushes pre la lb ea eb .Assign]
    show Except.ok (set_last_kind _ _) = _
    rw [set_last_kind_append]
    rfl

end Soren
